import Mathlib

/-!
Verification development for the prism capture-and-transport pipeline.

The kernel-side capture probe is embedded from `src/bpf/http/tc_http.c`;
the userspace control flow (read loops, attach/teardown, shutdown
coordination, transport selection) is embedded from `src/main.go`.
A frame is modelled as its linear byte list (the probe calls
`bpf_skb_pull_data(skb, skb->len)` first, so byte access is contiguous
and `data_end - data_start` is the frame length).  Effects of the two
kernel helpers the probe calls (`bpf_map_lookup_elem` on the per-CPU
scratch map and `bpf_ringbuf_reserve`) are modelled by two boolean
success inputs plus an explicit step trace recording which buffer each
write, submit or discard touches.
-/

namespace Prism

/-! ### Constants from src/bpf/http/tc_http.c -/

def TC_ACT_UNSPEC : Int := -1

def TC_ACT_OK : Int := 0

def TC_ACT_SHOT : Int := 2

def TC_ACT_STOLEN : Int := 4

def TC_ACT_REDIRECT : Int := 7

def ETH_P_IP : Nat := 0x0800

/-- sizeof(struct ethhdr) -/
def ETH_HLEN : Nat := 14

/-- sizeof(struct iphdr) -/
def IP_HLEN : Nat := 20

/-- sizeof(struct tcphdr) -/
def TCP_HLEN : Nat := 20

def IPPROTO_TCP : Nat := 6

def HTTP_DATA_MIN_SIZE : Nat := 91

def MAX_DATA_SIZE : Nat := 4000

/-- enum tc_type { Egress, Ingress } -/
inductive TcType
  | Egress
  | Ingress
deriving DecidableEq, Repr

/-- The numeric value of the C enum constant (Egress = 0, Ingress = 1),
which is what the 4-byte `type` field of the wire record carries. -/
def TcType.toCode : TcType → Nat
  | .Egress => 0
  | .Ingress => 1

/-- struct http_data_event.  `data` is modelled as the list of bytes the
copy loop actually wrote (the C buffer's remaining capacity is not
meaningful and is never read downstream). -/
structure HttpDataEvent where
  type : TcType
  data : List Nat
  data_len : Nat
deriving DecidableEq, Repr

/-- `eth->h_proto` of the frame, read in network byte order from bytes 12
and 13, so comparing it with `ETH_P_IP` is the C comparison
`eth->h_proto == bpf_htons(ETH_P_IP)`. -/
def frameEthProto (skb : List Nat) : Nat :=
  skb.getD 12 0 * 256 + skb.getD 13 0

/-- `iph->protocol`: byte 9 of the IPv4 header, at absolute offset
ETH_HLEN + 9 = 23. -/
def frameIpProtocol (skb : List Nat) : Nat :=
  skb.getD 23 0

/-- Which buffer a probe memory effect touches: the per-CPU scratch map
value (`data_buffer_heap`) or the ringbuf reservation. -/
inductive BufKind
  | scratch
  | reservation
deriving DecidableEq, Repr

/-- One observable step of the probe's interaction with its buffers. -/
inductive ProbeStep
  | lookupScratch (ok : Bool)
  | reserve (ok : Bool)
  | writeField (target : BufKind)
  | submit (target : BufKind)
  | discard (target : BufKind)
deriving DecidableEq, Repr

structure ProbeResult where
  action : Int
  event : Option HttpDataEvent
  trace : List ProbeStep
deriving DecidableEq, Repr

/-- The byte-copy loop of `capture_packets`: `for (i = 0; i < MAX_DATA_SIZE; i++)`
with the per-iteration boundary check `if (cursor + 1 > data_end) break;`.
`fuel` is the remaining iteration budget, `cursor` the absolute offset. -/
def copyLoop (skb : List Nat) : Nat → Nat → List Nat
  | 0, _ => []
  | fuel + 1, cursor =>
    if cursor + 1 > skb.length then []
    else skb.getD cursor 0 :: copyLoop skb fuel (cursor + 1)

/-- `capture_packets` from src/bpf/http/tc_http.c lines 59-140, branch by
branch.  `scratchOk` is whether `bpf_map_lookup_elem(&data_buffer_heap, ...)`
returns non-NULL, `reserveOk` whether `bpf_ringbuf_reserve` succeeds.
The reserve-failure branch returns the literal `0` exactly as the C does
(line 109), every other branch returns `TC_ACT_OK`. -/
def capture_packets (skb : List Nat) (type : TcType) (scratchOk reserveOk : Bool) :
    ProbeResult :=
  if ETH_HLEN + IP_HLEN + TCP_HLEN > skb.length then
    { action := TC_ACT_OK, event := none, trace := [] }
  else if frameEthProto skb ≠ ETH_P_IP then
    { action := TC_ACT_OK, event := none, trace := [] }
  else if frameIpProtocol skb ≠ IPPROTO_TCP then
    { action := TC_ACT_OK, event := none, trace := [] }
  else
    let len := skb.length
    if len < 0 then
      { action := TC_ACT_OK, event := none, trace := [] }
    else if len ≤ HTTP_DATA_MIN_SIZE then
      { action := TC_ACT_OK, event := none, trace := [] }
    else if ¬ scratchOk then
      { action := TC_ACT_OK, event := none, trace := [ProbeStep.lookupScratch false] }
    else if ¬ reserveOk then
      { action := 0, event := none,
        trace := [ProbeStep.lookupScratch true, ProbeStep.reserve false] }
    else
      let copied := copyLoop skb MAX_DATA_SIZE 0
      { action := TC_ACT_OK
        event := some
          { type := type
            data := copied
            data_len := if len < MAX_DATA_SIZE then len else MAX_DATA_SIZE }
        trace :=
          ProbeStep.lookupScratch true :: ProbeStep.reserve true ::
            ProbeStep.writeField BufKind.reservation ::
              ProbeStep.writeField BufKind.reservation ::
                ((copied.map fun _ => ProbeStep.writeField BufKind.reservation) ++
                  [ProbeStep.submit BufKind.reservation]) }

/-- SEC("classifier/egress") entry point. -/
def egress_cls_func (skb : List Nat) (scratchOk reserveOk : Bool) : ProbeResult :=
  capture_packets skb TcType.Egress scratchOk reserveOk

/-- SEC("classifier/ingress") entry point. -/
def ingress_cls_func (skb : List Nat) (scratchOk reserveOk : Bool) : ProbeResult :=
  capture_packets skb TcType.Ingress scratchOk reserveOk

/-! ### Embedding of the userspace side, src/main.go -/

/-- Little-endian 32-bit read at `off`, as `encoding/binary` does for a
`uint32` field. -/
def le32 (raw : List Nat) (off : Nat) : Nat :=
  raw.getD off 0 + raw.getD (off + 1) 0 * 256 +
    raw.getD (off + 2) 0 * 65536 + raw.getD (off + 3) 0 * 16777216

/-- The Go-side decoded record (bpf2go-generated struct for
`http_data_event`): 4-byte type code, 4000-byte payload, 4-byte length. -/
structure GoHttpDataEvent where
  typeCode : Nat
  data : List Nat
  dataLen : Nat
deriving DecidableEq, Repr

/-- `binary.Read(bytes.NewBuffer(raw), binary.LittleEndian, &event)`:
succeeds iff the buffer holds the full 4 + 4000 + 4 = 4008-byte layout,
otherwise the record fails to decode. -/
def decodeHttpDataEvent (raw : List Nat) : Option GoHttpDataEvent :=
  if 4008 ≤ raw.length then
    some { typeCode := le32 raw 0, data := (raw.drop 4).take 4000, dataLen := le32 raw 4004 }
  else
    none

/-- Outcome of one `rd.Read()` call: the distinguished closed error
(`errors.Is(err, perf.ErrClosed)`), any other error, or a raw record. -/
inductive ReadResult
  | closedErr
  | otherErr
  | sample (raw : List Nat)
deriving DecidableEq, Repr

structure LoopRun where
  cleanExit : Bool
  sends : List GoHttpDataEvent
deriving DecidableEq, Repr

/-- The read loop of `runRingBuf` (main.go lines 204-222) applied to a
finite list of observed read outcomes: closed error returns, any other
error logs and continues, a record that fails to decode logs and is
dropped, a decoded record is sent to the queue.  `cleanExit = false`
means the loop is still running (blocked on the next read). -/
def runRingBufLoop : List ReadResult → LoopRun
  | [] => { cleanExit := false, sends := [] }
  | ReadResult.closedErr :: _ => { cleanExit := true, sends := [] }
  | ReadResult.otherErr :: rest => runRingBufLoop rest
  | ReadResult.sample raw :: rest =>
    match decodeHttpDataEvent raw with
    | none => runRingBufLoop rest
    | some ev =>
      let r := runRingBufLoop rest
      { cleanExit := r.cleanExit, sends := ev :: r.sends }

/-- The read loop of `runPerf` (main.go lines 247-265); the code is the
same loop over the perf reader. -/
def runPerfLoop : List ReadResult → LoopRun
  | [] => { cleanExit := false, sends := [] }
  | ReadResult.closedErr :: _ => { cleanExit := true, sends := [] }
  | ReadResult.otherErr :: rest => runPerfLoop rest
  | ReadResult.sample raw :: rest =>
    match decodeHttpDataEvent raw with
    | none => runPerfLoop rest
    | some ev =>
      let r := runPerfLoop rest
      { cleanExit := r.cleanExit, sends := ev :: r.sends }

/-! ### TC attachment state (replaceQdisc / attachTC, main.go lines 269-308)

The kernel's TC configuration is modelled as the lists of installed
qdiscs and filters; `netlink.QdiscReplace` and `netlink.FilterReplace`
install their argument, replacing any object with the same identifying
key — the library's replace (not append) semantics. -/

structure QdiscAttrs where
  linkIndex : Nat
  handle : Nat
  parent : Nat
deriving DecidableEq, Repr

structure GenericQdisc where
  qdiscAttrs : QdiscAttrs
  qdiscType : String
deriving DecidableEq, Repr

structure FilterAttrs where
  linkIndex : Nat
  parent : Nat
  handle : Nat
  protocol : Nat
  priority : Nat
deriving DecidableEq, Repr

structure BpfFilter where
  filterAttrs : FilterAttrs
  fd : Nat
  name : String
  directAction : Bool
deriving DecidableEq, Repr

structure TcState where
  qdiscs : List GenericQdisc
  filters : List BpfFilter
deriving DecidableEq, Repr

/-- netlink.MakeHandle: (major << 16) | minor. -/
def MakeHandle (major minor : Nat) : Nat := major * 65536 + minor

def HANDLE_CLSACT : Nat := 0xfffffff1

def HANDLE_MIN_INGRESS : Nat := 0xfffffff2

def HANDLE_MIN_EGRESS : Nat := 0xfffffff3

def ETH_P_ALL : Nat := 3

/-- The kernel key identifying a qdisc. -/
def qdiscKey (q : GenericQdisc) : Nat × Nat × Nat :=
  (q.qdiscAttrs.linkIndex, q.qdiscAttrs.handle, q.qdiscAttrs.parent)

/-- The kernel key identifying a TC filter. -/
def filterKey (f : BpfFilter) : Nat × Nat × Nat × Nat × Nat :=
  (f.filterAttrs.linkIndex, f.filterAttrs.parent, f.filterAttrs.priority,
    f.filterAttrs.protocol, f.filterAttrs.handle)

/-- Model of netlink.QdiscReplace: install `q`, replacing any qdisc with
the same key. -/
def QdiscReplace (q : GenericQdisc) (s : TcState) : TcState :=
  { s with qdiscs := q :: s.qdiscs.filter fun q2 => decide (qdiscKey q2 ≠ qdiscKey q) }

/-- Model of netlink.FilterReplace: install `f`, replacing any filter
with the same key. -/
def FilterReplace (f : BpfFilter) (s : TcState) : TcState :=
  { s with filters := f :: s.filters.filter fun f2 => decide (filterKey f2 ≠ filterKey f) }

/-- The clsact qdisc object replaceQdisc builds for `linkIndex`: handle
MakeHandle(0xffff, 0), parent HANDLE_CLSACT, type "clsact". -/
def clsactQdisc (linkIndex : Nat) : GenericQdisc :=
  { qdiscAttrs :=
      { linkIndex := linkIndex, handle := MakeHandle 0xffff 0, parent := HANDLE_CLSACT }
    qdiscType := "clsact" }

/-- replaceQdisc (main.go lines 269-282): install the clsact qdisc via
QdiscReplace. -/
def replaceQdisc (linkIndex : Nat) (s : TcState) : TcState :=
  QdiscReplace (clsactQdisc linkIndex) s

/-- The BpfFilter record attachTC builds (main.go lines 290-301): handle
1, priority 1, protocol ETH_P_ALL, direct-action. -/
def tcFilter (linkIndex progFd : Nat) (progName linkName : String)
    (qdiscParent : Nat) : BpfFilter :=
  { filterAttrs :=
      { linkIndex := linkIndex, parent := qdiscParent, handle := 1,
        protocol := ETH_P_ALL, priority := 1 }
    fd := progFd
    name := progName ++ "-" ++ linkName
    directAction := true }

/-- attachTC (main.go lines 285-308): ensure the clsact qdisc, then
install the BPF filter via FilterReplace; returns the new state and the
filter. -/
def attachTC (linkIndex progFd : Nat) (progName linkName : String)
    (qdiscParent : Nat) (s : TcState) : TcState × BpfFilter :=
  let s1 := replaceQdisc linkIndex s
  let filter := tcFilter linkIndex progFd progName linkName qdiscParent
  (FilterReplace filter s1, filter)

/-! ### Shutdown interleaving (main.go lines 101-124 and 204-222)

Two threads after the signal fires: the stopper goroutine, which first
runs `close(queueTask)` and then `rd.Close()` (in that order, lines
115-120), and the reader loop, which alternates a read (returning the
closed error once the reader is closed, a record otherwise) with a send
`queueTask <- event` (which panics if the queue is already closed). -/

inductive ShutdownThread
  | stopper
  | reader
deriving DecidableEq, Repr

structure ShutdownState where
  queueClosed : Bool
  readerClosed : Bool
  stopperPC : Nat
  readerPC : Nat
  panicked : Bool
deriving DecidableEq, Repr

def initShutdownState : ShutdownState :=
  { queueClosed := false, readerClosed := false, stopperPC := 0, readerPC := 0,
    panicked := false }

def shutdownStep (s : ShutdownState) : ShutdownThread → ShutdownState
  | ShutdownThread.stopper =>
    if s.stopperPC = 0 then { s with queueClosed := true, stopperPC := 1 }
    else if s.stopperPC = 1 then { s with readerClosed := true, stopperPC := 2 }
    else s
  | ShutdownThread.reader =>
    if s.readerPC = 0 then
      if s.readerClosed then { s with readerPC := 2 }
      else { s with readerPC := 1 }
    else if s.readerPC = 1 then
      if s.queueClosed then { s with panicked := true, readerPC := 2 }
      else { s with readerPC := 0 }
    else s

def shutdownRun (sched : List ShutdownThread) : ShutdownState :=
  sched.foldl shutdownStep initShutdownState

/-! ### Exit paths of main's ringbuf branch (main.go lines 75-124, 182-188)

Go semantics embedded here: `log.Fatalf` / `log.Fatal` call `os.Exit`,
which skips all deferred calls; a normal return runs the deferred calls
in LIFO order.  The deferred `netlink.FilterDel(...)` calls discard the
deletion result, so the outcome does not depend on `ingressDelOk` /
`egressDelOk` at all. -/

structure ShutdownEnv where
  loadOk : Bool
  linkOk : Bool
  attachIngressOk : Bool
  attachEgressOk : Bool
  readerOpenOk : Bool
  dbOpenOk : Bool
  ingressDelOk : Bool
  egressDelOk : Bool
deriving DecidableEq, Repr

inductive CleanupAction
  | closeObjs
  | delIngressFilter
  | delEgressFilter
  | closeDb
deriving DecidableEq, Repr

structure MainOutcome where
  fatal : Bool
  cleanups : List CleanupAction
deriving DecidableEq, Repr

/-- Both attachTC calls succeeded, so both filters are installed. -/
def bothFiltersAttached (e : ShutdownEnv) : Bool :=
  e.loadOk && e.linkOk && e.attachIngressOk && e.attachEgressOk

/-- Exit-path behavior of main's ringbuf branch followed by runRingBuf:
each fatal log exits immediately with no deferred cleanup run; the
normal (signal-triggered) return runs db.Close, FilterDel(egress),
FilterDel(ingress), objs.Close in LIFO defer order. -/
def mainRingbufRun (e : ShutdownEnv) : MainOutcome :=
  if ¬ e.loadOk then { fatal := true, cleanups := [] }
  else if ¬ e.linkOk then { fatal := true, cleanups := [] }
  else if ¬ e.attachIngressOk then { fatal := true, cleanups := [] }
  else if ¬ e.attachEgressOk then { fatal := true, cleanups := [] }
  else if ¬ e.readerOpenOk then { fatal := true, cleanups := [] }
  else if ¬ e.dbOpenOk then { fatal := true, cleanups := [] }
  else
    { fatal := false
      cleanups := [CleanupAction.closeDb, CleanupAction.delEgressFilter,
        CleanupAction.delIngressFilter, CleanupAction.closeObjs] }

/-! ### Transport selection (main.go lines 54-61, 75, 125) -/

inductive TransportMode
  | RingBuffer
  | PerfBuffer
deriving DecidableEq, Repr

inductive StartDecision
  | fatalKernelTooOld
  | run (mode : TransportMode)
deriving DecidableEq, Repr

/-- Modelled from the spec: `isMinKernelVer` and its threshold constant
`minKernelVer` live in a repository file not present under src/; per the
spec the detector "compares against two thresholds: a hard minimum below
which the whole system refuses to start".  Versions are linearized to
naturals; `minKernelVer` is passed as a parameter. -/
def isMinKernelVer (minKernelVer v : Nat) : Bool :=
  decide (minKernelVer ≤ v)

/-- Modelled from the spec: `isMaxKernelVer` and its threshold constant
live in a repository file not present under src/; per the spec it is "a
second threshold above which the modern queue transport is available". -/
def isMaxKernelVer (ringbufKernelVer v : Nat) : Bool :=
  decide (ringbufKernelVer ≤ v)

/-- main.go lines 58-61 then 75/125: below the minimum is fatal; at or
above the ringbuf threshold the ringbuf branch runs; otherwise the perf
branch runs. -/
def selectTransport (minKernelVer ringbufKernelVer v : Nat) : StartDecision :=
  if isMinKernelVer minKernelVer v = false then StartDecision.fatalKernelTooOld
  else if isMaxKernelVer ringbufKernelVer v = true then
    StartDecision.run TransportMode.RingBuffer
  else StartDecision.run TransportMode.PerfBuffer

/-! ### Concrete test inputs -/

/-- A 92-byte Ethernet+IPv4+TCP frame: ethertype 0x0800 at bytes 12-13,
IP protocol 6 (TCP) at byte 23. -/
def testFrame : List Nat :=
  List.replicate 12 0 ++ [8, 0] ++ List.replicate 9 0 ++ [6] ++ List.replicate 68 7

/-- The event the probe produces for `testFrame`. -/
def testEvent : HttpDataEvent :=
  { type := TcType.Ingress, data := testFrame, data_len := 92 }

/-- A 50-byte frame: below every size threshold. -/
def shortFrame : List Nat := List.replicate 50 7

/-- A 100-byte frame with ethertype 0x0806 (ARP). -/
def arpFrame : List Nat :=
  List.replicate 12 0 ++ [8, 6] ++ List.replicate 86 7

/-- The environment where every fallible startup step succeeds. -/
def allOkEnv : ShutdownEnv :=
  { loadOk := true, linkOk := true, attachIngressOk := true, attachEgressOk := true,
    readerOpenOk := true, dbOpenOk := true, ingressDelOk := true, egressDelOk := true }

/-- The environment where opening the ringbuf reader fails after both
filters were attached. -/
def readerOpenFailEnv : ShutdownEnv :=
  { loadOk := true, linkOk := true, attachIngressOk := true, attachEgressOk := true,
    readerOpenOk := false, dbOpenOk := true, ingressDelOk := true, egressDelOk := true }

/-! ## Helper lemmas -/

theorem copyLoop_eq_take (skb : List Nat) :
    ∀ fuel cursor : Nat, copyLoop skb fuel cursor = (skb.drop cursor).take fuel := by
  intro fuel
  induction fuel with
  | zero => intro c; simp [copyLoop]
  | succ n ih =>
    intro c
    rw [copyLoop]
    by_cases h : c + 1 > skb.length
    · rw [if_pos h, List.drop_eq_nil_of_le (by omega), List.take_nil]
    · rw [if_neg h]
      have hc : c < skb.length := by omega
      rw [ih (c + 1), List.getD_eq_getElem skb 0 hc, List.drop_eq_getElem_cons hc,
        List.take_succ_cons]

/-- If the probe produced an event, that event is fully determined: the
firing hook's direction, the verbatim frame bytes truncated at the
4000-byte capacity, and the truncated length. -/
theorem capture_event_spec (skb : List Nat) (t : TcType) (s r : Bool) (ev : HttpDataEvent)
    (h : (capture_packets skb t s r).event = some ev) :
    ev = { type := t, data := skb.take (min skb.length MAX_DATA_SIZE),
           data_len := min skb.length MAX_DATA_SIZE } := by
  have hcopy : copyLoop skb MAX_DATA_SIZE 0 = skb.take (min skb.length MAX_DATA_SIZE) := by
    rw [copyLoop_eq_take skb MAX_DATA_SIZE 0, List.drop_zero]
    rcases Nat.le_total skb.length MAX_DATA_SIZE with hle | hle
    · rw [Nat.min_eq_left hle, List.take_of_length_le hle, List.take_length]
    · rw [Nat.min_eq_right hle]
  simp only [capture_packets] at h
  split_ifs at h with h1 h2 h3 h4 h5 h6 h7 h8
  all_goals simp only [Option.some.injEq] at h
  all_goals rw [← h, hcopy]
  all_goals simp only [HttpDataEvent.mk.injEq]
  · exact ⟨trivial, trivial, by omega⟩
  · exact ⟨trivial, trivial, by omega⟩

/-- The probe's buffer-effect trace has exactly four shapes: filtered
frame (empty), scratch lookup failed, reservation failed, or the full
successful capture. -/
theorem capture_trace_cases (skb : List Nat) (t : TcType) (s r : Bool) :
    (capture_packets skb t s r).trace = [] ∨
    (capture_packets skb t s r).trace = [ProbeStep.lookupScratch false] ∨
    (capture_packets skb t s r).trace =
      [ProbeStep.lookupScratch true, ProbeStep.reserve false] ∨
    (capture_packets skb t s r).trace =
      ProbeStep.lookupScratch true :: ProbeStep.reserve true ::
        ProbeStep.writeField BufKind.reservation ::
          ProbeStep.writeField BufKind.reservation ::
            (((copyLoop skb MAX_DATA_SIZE 0).map
                fun _ => ProbeStep.writeField BufKind.reservation) ++
              [ProbeStep.submit BufKind.reservation]) := by
  simp only [capture_packets]
  split_ifs <;> simp

/-! ## Claim theorems -/

/-- C2: for every frame that produces an event, `data_len` equals
min(frame length, 4000), `data` is byte-for-byte the first `data_len`
bytes of the frame, and the direction equals the hook that fired,
encoded 0 for the egress classifier and 1 for the ingress classifier. -/
theorem probe_event_exact (skb : List Nat) (t : TcType) (s r : Bool) (ev : HttpDataEvent)
    (h : (capture_packets skb t s r).event = some ev) :
    ev.data_len = min skb.length MAX_DATA_SIZE ∧
    ev.data = List.take ev.data_len skb ∧
    ev.type = t ∧
    (∀ ev2 : HttpDataEvent, (egress_cls_func skb s r).event = some ev2 →
      ev2.type.toCode = 0) ∧
    (∀ ev2 : HttpDataEvent, (ingress_cls_func skb s r).event = some ev2 →
      ev2.type.toCode = 1) := by
  have hspec := capture_event_spec skb t s r ev h
  subst hspec
  refine ⟨rfl, rfl, rfl, ?_, ?_⟩
  · intro ev2 h2
    simp only [egress_cls_func] at h2
    rw [capture_event_spec skb TcType.Egress s r ev2 h2]
    rfl
  · intro ev2 h2
    simp only [ingress_cls_func] at h2
    rw [capture_event_spec skb TcType.Ingress s r ev2 h2]
    rfl

/-- Witness for C2: the 92-byte TCP test frame at the ingress hook. -/
theorem probe_event_exact_witness :
    testEvent.data_len = min testFrame.length MAX_DATA_SIZE ∧
    testEvent.data = List.take testEvent.data_len testFrame ∧
    testEvent.type = TcType.Ingress := by
  have h := probe_event_exact testFrame TcType.Ingress true true testEvent (by decide)
  exact ⟨h.1, h.2.1, h.2.2.1⟩

/-- A frame failing any of the four filter conditions is passed through
with no event and no buffer effect at all. -/
theorem capture_packets_filtered (skb : List Nat) (t : TcType) (s r : Bool)
    (hobs : skb.length < ETH_HLEN + IP_HLEN + TCP_HLEN ∨ frameEthProto skb ≠ ETH_P_IP ∨
      frameIpProtocol skb ≠ IPPROTO_TCP ∨ skb.length ≤ HTTP_DATA_MIN_SIZE) :
    capture_packets skb t s r = { action := TC_ACT_OK, event := none, trace := [] } := by
  simp only [capture_packets]
  split_ifs with h1 h2 h3 h4 h5 h6 h7 h8 <;> first
    | rfl
    | (exfalso
       rcases hobs with hd | hd | hd | hd
       · exact h1 (by omega)
       · exact hd (not_not.mp h2)
       · exact hd (not_not.mp h3)
       · exact h5 hd)

/-- If the probe produced an event, the frame passed every filter. -/
theorem capture_event_passed (skb : List Nat) (t : TcType) (s r : Bool)
    (h : (capture_packets skb t s r).event.isSome = true) :
    ETH_HLEN + IP_HLEN + TCP_HLEN ≤ skb.length ∧ frameEthProto skb = ETH_P_IP ∧
    frameIpProtocol skb = IPPROTO_TCP ∧ HTTP_DATA_MIN_SIZE < skb.length := by
  by_cases c1 : skb.length < ETH_HLEN + IP_HLEN + TCP_HLEN
  · rw [capture_packets_filtered skb t s r (Or.inl c1)] at h
    simp at h
  · by_cases c2 : frameEthProto skb = ETH_P_IP
    · by_cases c3 : frameIpProtocol skb = IPPROTO_TCP
      · by_cases c4 : skb.length ≤ HTTP_DATA_MIN_SIZE
        · rw [capture_packets_filtered skb t s r (Or.inr (Or.inr (Or.inr c4)))] at h
          simp at h
        · exact ⟨by omega, c2, c3, by omega⟩
      · rw [capture_packets_filtered skb t s r (Or.inr (Or.inr (Or.inl c3)))] at h
        simp at h
    · rw [capture_packets_filtered skb t s r (Or.inr (Or.inl c2))] at h
      simp at h

/-- C3: an event is produced only if the frame passes every filter
(length at least the Ethernet+IPv4+TCP header sizes, ethertype IPv4, IP
protocol TCP, length strictly above 91), and a frame failing any filter
is passed through with no event and no buffer effect. -/
theorem probe_filter_gate (skb : List Nat) (t : TcType) (s r : Bool) :
    ((capture_packets skb t s r).event.isSome = true →
        ETH_HLEN + IP_HLEN + TCP_HLEN ≤ skb.length ∧
        frameEthProto skb = ETH_P_IP ∧
        frameIpProtocol skb = IPPROTO_TCP ∧
        HTTP_DATA_MIN_SIZE < skb.length) ∧
    ((skb.length < ETH_HLEN + IP_HLEN + TCP_HLEN ∨ frameEthProto skb ≠ ETH_P_IP ∨
        frameIpProtocol skb ≠ IPPROTO_TCP ∨ skb.length ≤ HTTP_DATA_MIN_SIZE) →
      capture_packets skb t s r = { action := TC_ACT_OK, event := none, trace := [] }) :=
  ⟨capture_event_passed skb t s r, capture_packets_filtered skb t s r⟩

/-- Witness for C3: the 50-byte frame is passed through untouched. -/
theorem probe_filter_gate_witness :
    capture_packets shortFrame TcType.Egress true true =
      { action := TC_ACT_OK, event := none, trace := [] } :=
  (probe_filter_gate shortFrame TcType.Egress true true).2 (Or.inl (by decide))

/-- C4: every execution path of the probe returns the pass-through
action TC_ACT_OK = 0 — including all failure branches — never a shot,
stolen, or redirect code. -/
theorem probe_always_pass_through (skb : List Nat) (t : TcType) (s r : Bool) :
    (capture_packets skb t s r).action = TC_ACT_OK ∧
    TC_ACT_OK = 0 ∧
    (capture_packets skb t s r).action ≠ TC_ACT_SHOT ∧
    (capture_packets skb t s r).action ≠ TC_ACT_STOLEN ∧
    (capture_packets skb t s r).action ≠ TC_ACT_REDIRECT := by
  simp only [capture_packets]
  split_ifs <;>
    refine ⟨rfl, rfl, ?_, ?_, ?_⟩ <;>
      simp only [TC_ACT_OK, TC_ACT_SHOT, TC_ACT_STOLEN, TC_ACT_REDIRECT] <;> omega

/-- C9: no probe step ever writes to (or submits or discards) the
per-CPU scratch value; whenever any field write happens, the trace
starts with the scratch lookup immediately followed by the ringbuf
reservation that replaces it, so every write targets the reservation. -/
theorem probe_scratch_never_written (skb : List Nat) (t : TcType) (s r : Bool) :
    (∀ st ∈ (capture_packets skb t s r).trace,
        st ≠ ProbeStep.writeField BufKind.scratch ∧
        st ≠ ProbeStep.submit BufKind.scratch ∧
        st ≠ ProbeStep.discard BufKind.scratch) ∧
    (ProbeStep.writeField BufKind.reservation ∈ (capture_packets skb t s r).trace →
      (capture_packets skb t s r).trace.take 2 =
        [ProbeStep.lookupScratch true, ProbeStep.reserve true]) := by
  rcases capture_trace_cases skb t s r with h | h | h | h <;> rw [h]
  · exact ⟨by intro st hst; simp at hst, by intro hm; simp at hm⟩
  · refine ⟨?_, by intro hm; simp at hm⟩
    intro st hst
    simp only [List.mem_singleton] at hst
    subst hst
    exact ⟨by decide, by decide, by decide⟩
  · refine ⟨?_, by intro hm; simp at hm⟩
    intro st hst
    simp only [List.mem_cons, List.not_mem_nil, or_false] at hst
    rcases hst with rfl | rfl <;> exact ⟨by decide, by decide, by decide⟩
  · refine ⟨?_, by intro _; rfl⟩
    intro st hst
    simp only [List.mem_cons, List.mem_append, List.mem_map, List.mem_singleton,
      List.not_mem_nil, or_false] at hst
    rcases hst with rfl | rfl | rfl | rfl | ⟨a, _, rfl⟩ | rfl <;>
      exact ⟨by decide, by decide, by decide⟩

/-- Witness for C9: on the test frame the trace opens with the scratch
lookup followed by the reservation. -/
theorem probe_scratch_never_written_witness :
    (capture_packets testFrame TcType.Egress true true).trace.take 2 =
      [ProbeStep.lookupScratch true, ProbeStep.reserve true] :=
  (probe_scratch_never_written testFrame TcType.Egress true true).2 (by decide)

/-- C10: if the ringbuf reservation succeeds the probe submits it
exactly once and never discards it; if the reservation fails nothing is
ever submitted. -/
theorem probe_reserve_implies_submit_once (skb : List Nat) (t : TcType) (s r : Bool) :
    (ProbeStep.reserve true ∈ (capture_packets skb t s r).trace →
      ((capture_packets skb t s r).trace.count (ProbeStep.submit BufKind.reservation) = 1 ∧
        ∀ b : BufKind, ProbeStep.discard b ∉ (capture_packets skb t s r).trace)) ∧
    (ProbeStep.reserve false ∈ (capture_packets skb t s r).trace →
      ∀ b : BufKind, ProbeStep.submit b ∉ (capture_packets skb t s r).trace) := by
  rcases capture_trace_cases skb t s r with h | h | h | h <;> rw [h]
  · exact ⟨by intro hm; simp at hm, by intro hm; simp at hm⟩
  · exact ⟨by intro hm; simp at hm, by intro hm; simp at hm⟩
  · refine ⟨by intro hm; simp at hm, ?_⟩
    intro _ b hm
    simp at hm
  · refine ⟨?_, by intro hm; simp at hm⟩
    intro _
    constructor
    · simp [List.count_cons, List.count_append, List.count_eq_zero, List.mem_map]
    · intro b hm
      simp at hm

/-- Witness for C10: on the test frame the successful reservation is
submitted exactly once. -/
theorem probe_reserve_implies_submit_once_witness :
    (capture_packets testFrame TcType.Ingress true true).trace.count
        (ProbeStep.submit BufKind.reservation) = 1 :=
  ((probe_reserve_implies_submit_once testFrame TcType.Ingress true true).1 (by decide)).1

theorem runRingBufLoop_cleanExit (reads : List ReadResult) :
    (runRingBufLoop reads).cleanExit = true ↔ ReadResult.closedErr ∈ reads := by
  induction reads with
  | nil => simp [runRingBufLoop]
  | cons hd tl ih =>
    cases hd with
    | closedErr => simp [runRingBufLoop]
    | otherErr => rw [runRingBufLoop]; simp [ih]
    | sample raw =>
      rw [runRingBufLoop]
      split <;> simp [ih]

theorem runPerfLoop_cleanExit (reads : List ReadResult) :
    (runPerfLoop reads).cleanExit = true ↔ ReadResult.closedErr ∈ reads := by
  induction reads with
  | nil => simp [runPerfLoop]
  | cons hd tl ih =>
    cases hd with
    | closedErr => simp [runPerfLoop]
    | otherErr => rw [runPerfLoop]; simp [ih]
    | sample raw =>
      rw [runPerfLoop]
      split <;> simp [ih]

/-- C6: in both variants the read loop exits cleanly if and only if some
read returned the distinguished closed error; the closed error ends the
loop at once with no further sends, any other read error is logged and
the loop continues unchanged, and a record that fails to decode is
dropped and the loop continues unchanged. -/
theorem reader_loop_termination_contract (reads : List ReadResult) (raw : List Nat) :
    ((runRingBufLoop reads).cleanExit = true ↔ ReadResult.closedErr ∈ reads) ∧
    ((runPerfLoop reads).cleanExit = true ↔ ReadResult.closedErr ∈ reads) ∧
    runRingBufLoop (ReadResult.closedErr :: reads) = { cleanExit := true, sends := [] } ∧
    runPerfLoop (ReadResult.closedErr :: reads) = { cleanExit := true, sends := [] } ∧
    runRingBufLoop (ReadResult.otherErr :: reads) = runRingBufLoop reads ∧
    runPerfLoop (ReadResult.otherErr :: reads) = runPerfLoop reads ∧
    (decodeHttpDataEvent raw = none →
      runRingBufLoop (ReadResult.sample raw :: reads) = runRingBufLoop reads ∧
      runPerfLoop (ReadResult.sample raw :: reads) = runPerfLoop reads) := by
  refine ⟨runRingBufLoop_cleanExit reads, runPerfLoop_cleanExit reads, rfl, rfl, rfl, rfl, ?_⟩
  intro hdec
  constructor
  · rw [runRingBufLoop, hdec]
  · rw [runPerfLoop, hdec]

/-- Witness for C6: a truncated 0-byte record is dropped and the loop
continues as if it never appeared. -/
theorem reader_loop_termination_contract_witness :
    runRingBufLoop [ReadResult.sample [], ReadResult.closedErr] =
      runRingBufLoop [ReadResult.closedErr] := by
  have h := reader_loop_termination_contract [ReadResult.closedErr] []
  exact (h.2.2.2.2.2.2 (by decide)).1

theorem countP_keyed_one {α κ : Type} [DecidableEq κ] (key : α → κ) (a : α) (l : List α) :
    ((a :: l.filter fun x => decide (key x ≠ key a)).countP
        fun x => decide (key x = key a)) = 1 := by
  rw [List.countP_cons]
  have hz : (l.filter fun x => decide (key x ≠ key a)).countP
      (fun x => decide (key x = key a)) = 0 := by
    rw [List.countP_eq_zero]
    intro x hx
    have hq := List.of_mem_filter hx
    simp only [decide_eq_true_eq] at hq ⊢
    exact hq
  rw [hz]
  simp

theorem filter_cons_self_key {α κ : Type} [DecidableEq κ] (key : α → κ) (a : α) (l : List α) :
    ((a :: l.filter fun x => decide (key x ≠ key a)).filter
        fun x => decide (key x ≠ key a)) =
      l.filter fun x => decide (key x ≠ key a) := by
  rw [List.filter_cons]
  simp [List.filter_filter]

theorem QdiscReplace_idem (q : GenericQdisc) (s : TcState) :
    QdiscReplace q (QdiscReplace q s) = QdiscReplace q s := by
  simp only [QdiscReplace]
  rw [filter_cons_self_key qdiscKey q s.qdiscs]

theorem FilterReplace_idem (f : BpfFilter) (s : TcState) :
    FilterReplace f (FilterReplace f s) = FilterReplace f s := by
  simp only [FilterReplace]
  rw [filter_cons_self_key filterKey f s.filters]

theorem QdiscReplace_FilterReplace_comm (q : GenericQdisc) (f : BpfFilter) (s : TcState) :
    QdiscReplace q (FilterReplace f s) = FilterReplace f (QdiscReplace q s) := rfl

theorem attachTC_state_eq (linkIndex progFd : Nat) (progName linkName : String)
    (qdiscParent : Nat) (s : TcState) :
    (attachTC linkIndex progFd progName linkName qdiscParent s).1 =
      FilterReplace (tcFilter linkIndex progFd progName linkName qdiscParent)
        (QdiscReplace (clsactQdisc linkIndex) s) := rfl

/-- C7: attaching twice in succession for the same interface and
direction is idempotent — the state after the second attach equals the
state after the first, and it holds exactly one filter with the
installed filter's key and exactly one qdisc with the clsact key,
because both the qdisc and the filter are installed with replace
semantics. -/
theorem attachTC_idempotent (s : TcState) (linkIndex progFd : Nat)
    (progName linkName : String) (qdiscParent : Nat) :
    (attachTC linkIndex progFd progName linkName qdiscParent
        (attachTC linkIndex progFd progName linkName qdiscParent s).1).1 =
      (attachTC linkIndex progFd progName linkName qdiscParent s).1 ∧
    ((attachTC linkIndex progFd progName linkName qdiscParent
        (attachTC linkIndex progFd progName linkName qdiscParent s).1).1.filters.countP
          fun f2 => decide (filterKey f2 =
            filterKey (attachTC linkIndex progFd progName linkName qdiscParent s).2)) = 1 ∧
    ((attachTC linkIndex progFd progName linkName qdiscParent
        (attachTC linkIndex progFd progName linkName qdiscParent s).1).1.qdiscs.countP
          fun q2 => decide (qdiscKey q2 = qdiscKey (clsactQdisc linkIndex))) = 1 := by
  refine ⟨?_, ?_, ?_⟩
  · rw [attachTC_state_eq, attachTC_state_eq, QdiscReplace_FilterReplace_comm,
      QdiscReplace_idem, FilterReplace_idem]
  · exact countP_keyed_one filterKey _ _
  · exact countP_keyed_one qdiscKey _ _

/-- C8: transport selection is a function of the kernel version against
the two thresholds: below the hard minimum it refuses to start, at or
above the ringbuf threshold it selects the RingBuffer transport, in
between it selects the PerfBuffer transport. -/
theorem transport_selection_pure (minKernelVer ringbufKernelVer v : Nat) :
    (v < minKernelVer →
      selectTransport minKernelVer ringbufKernelVer v = StartDecision.fatalKernelTooOld) ∧
    (minKernelVer ≤ v → ringbufKernelVer ≤ v →
      selectTransport minKernelVer ringbufKernelVer v =
        StartDecision.run TransportMode.RingBuffer) ∧
    (minKernelVer ≤ v → v < ringbufKernelVer →
      selectTransport minKernelVer ringbufKernelVer v =
        StartDecision.run TransportMode.PerfBuffer) := by
  refine ⟨fun h => ?_, fun h1 h2 => ?_, fun h1 h2 => ?_⟩
  · have hm : ¬ minKernelVer ≤ v := by omega
    simp [selectTransport, isMinKernelVer, isMaxKernelVer, hm]
  · simp [selectTransport, isMinKernelVer, isMaxKernelVer, h1, h2]
  · have hr : ¬ ringbufKernelVer ≤ v := by omega
    simp [selectTransport, isMinKernelVer, isMaxKernelVer, h1, hr]

/-- Witness for C8: with minimum threshold 416 and ringbuf threshold
508, version 510 runs the ring buffer, 420 the perf buffer, and 300 is
refused. -/
theorem transport_selection_pure_witness :
    selectTransport 416 508 510 = StartDecision.run TransportMode.RingBuffer ∧
    selectTransport 416 508 420 = StartDecision.run TransportMode.PerfBuffer ∧
    selectTransport 416 508 300 = StartDecision.fatalKernelTooOld := by
  refine ⟨(transport_selection_pure 416 508 510).2.1 (by omega) (by omega),
    (transport_selection_pure 416 508 420).2.2 (by omega) (by omega),
    (transport_selection_pure 416 508 300).1 (by omega)⟩

/-- Counterexample to C5 as stated: when opening the ringbuf reader
fails after both filters were attached, main exits through log.Fatalf
(os.Exit), which skips every deferred call — neither filter is deleted
on that exit path. -/
theorem filters_deleted_every_path_counterexample :
    bothFiltersAttached readerOpenFailEnv = true ∧
    (mainRingbufRun readerOpenFailEnv).fatal = true ∧
    (mainRingbufRun readerOpenFailEnv).cleanups = [] ∧
    CleanupAction.delIngressFilter ∉ (mainRingbufRun readerOpenFailEnv).cleanups ∧
    CleanupAction.delEgressFilter ∉ (mainRingbufRun readerOpenFailEnv).cleanups := by
  refine ⟨rfl, rfl, rfl, ?_, ?_⟩ <;> decide

theorem mainRingbufRun_delFree (e : ShutdownEnv) (b1 b2 : Bool) :
    mainRingbufRun { e with ingressDelOk := b1, egressDelOk := b2 } = mainRingbufRun e := rfl

/-- C5 (amended): on the normal, signal-triggered exit path both
deferred FilterDel calls run; fatal exits after attachment skip them;
and the deletion results are silently discarded — the whole outcome is
independent of them, so a deletion error is never escalated (and also
never logged). -/
theorem filters_deleted_normal_exit (e : ShutdownEnv)
    (h : (mainRingbufRun e).fatal = false) :
    CleanupAction.delIngressFilter ∈ (mainRingbufRun e).cleanups ∧
    CleanupAction.delEgressFilter ∈ (mainRingbufRun e).cleanups ∧
    (∀ b1 b2 : Bool,
      mainRingbufRun { e with ingressDelOk := b1, egressDelOk := b2 } = mainRingbufRun e) := by
  refine ⟨?_, ?_, fun b1 b2 => mainRingbufRun_delFree e b1 b2⟩ <;>
    · unfold mainRingbufRun at h ⊢
      split_ifs at h ⊢ with h1 h2 h3 h4 h5 h6
      all_goals first | (exact absurd h (by decide)) | decide

/-- Witness for C5 (amended): with every startup step succeeding, both
filter deletions run on exit. -/
theorem filters_deleted_normal_exit_witness :
    CleanupAction.delIngressFilter ∈ (mainRingbufRun allOkEnv).cleanups ∧
    CleanupAction.delEgressFilter ∈ (mainRingbufRun allOkEnv).cleanups := by
  have h := filters_deleted_normal_exit allOkEnv (by decide)
  exact ⟨h.1, h.2.1⟩

/-- C1: the stopper goroutine closes the dispatch queue before closing
the reader (main.go line 116 precedes line 118), so with one record in
flight the reader's send happens after the queue is closed and the
panic state is reachable; after the stopper's first step the queue is
already closed while the reader is not. -/
theorem shutdown_close_order_violated :
    (shutdownRun
        [ShutdownThread.reader, ShutdownThread.stopper, ShutdownThread.reader]).panicked
      = true ∧
    (shutdownRun [ShutdownThread.stopper]).queueClosed = true ∧
    (shutdownRun [ShutdownThread.stopper]).readerClosed = false := by
  decide

end Prism
